import Mathlib

/-!
# Verification of the xPedite content-fit PDF renderer scripts

A shallow embedding of the repository's Puppeteer scripts
(`src/unnamed/part_000`, `src/unnamed/part_001`, and
`src/puppeteer_pdf_generator/testpdf.js`).

The embedding covers:
* the JS string operations (`includes`, `indexOf`, `replace`, `substring`
  splicing) used by the HTML-normalization step, over `List Char`;
* the HTML normalization pipeline of `generateExactPdf` (wrap in a document
  shell, ensure `<head>`, insert the viewport meta tag, insert a `<title>`);
* the `document.querySelectorAll('*')` content-height measurement loop, over
  an abstract snapshot of per-element observations (computed style, bounding
  rectangle bottom, text/image/background content, bottom margin);
* the viewport-width / title selection from `viewType` and `deviceWidth`
  (JSON argument values modelled as a sum of absent / number / string);
* the px → inch conversion used for the final `page.pdf` call;
* the control flow of the scripts as event traces: launch, load, the image
  wait with its non-fatal 10s timeout, the font wait, the settle delay,
  measurement, export, the `try`/`catch`/`finally` structure and
  `process.exit`.  `process.exit(n)` terminates the Node process
  immediately, so a `finally` block that has not started yet does not run;
  an exception thrown outside any `try` (or in a script without one) makes
  the async function's promise reject, which under default Node settings
  crashes the process with exit code 1 without running any `catch` in the
  script.
-/

set_option maxRecDepth 16384

namespace XPedite

/-- Characters of a Lean string: the representation used for the JS strings
manipulated by the scripts. -/
def toL (s : String) : List Char := s.data

/-- Number of occurrences of `pat` in the given string, counted at every
starting position (the notion underlying JS `includes` / `indexOf`). -/
def occ (pat : List Char) : List Char → Nat
  | [] => 0
  | c :: rest => (if pat <+: (c :: rest) then 1 else 0) + occ pat rest

/-- Index of the first occurrence of `pat`: JS `String.prototype.indexOf`,
with `none` standing for `-1`. -/
def firstIdx (pat : List Char) : List Char → Option Nat
  | [] => if pat = [] then some 0 else none
  | c :: rest => if pat <+: (c :: rest) then some 0 else (firstIdx pat rest).map (· + 1)

/-- JS `String.prototype.includes`. -/
def includesL (pat s : List Char) : Bool := (firstIdx pat s).isSome

/-- JS `String.prototype.replace` with a plain string pattern: replaces the
first occurrence only; returns the string unchanged when there is none. -/
def replaceFirst (pat repl s : List Char) : List Char :=
  match firstIdx pat s with
  | none => s
  | some i => s.take i ++ repl ++ s.drop (i + pat.length)

/-- No occurrence of `pat` can start inside `a` and continue past its end:
for every candidate overlap length `k`, the last `k` characters of `a`
differ from the first `k` characters of `pat`. -/
def leftSafe (pat a : List Char) : Prop :=
  ∀ k, k < pat.length → 0 < k → k ≤ a.length → pat.take k ≠ a.drop (a.length - k)

/-- No occurrence of `pat` can start before `b` and continue into it: no
proper nonempty tail of `pat` is a prefix of `b`. -/
def rightSafe (pat b : List Char) : Prop :=
  ∀ j, j < pat.length → 0 < j → ¬ pat.drop j <+: b

instance (pat a : List Char) : Decidable (leftSafe pat a) :=
  Nat.decidableBallLT pat.length _

instance (pat b : List Char) : Decidable (rightSafe pat b) :=
  Nat.decidableBallLT pat.length _

/-- The `<meta name="viewport" ...>` tag inserted by the scripts. -/
def metaViewportTag : List Char :=
  toL "<meta name=\"viewport\" content=\"width=device-width, initial-scale=1.0, shrink-to-fit=no\">"

/-- The pattern the scripts search for to decide whether a viewport meta tag
is already present. -/
def metaViewportPat : List Char := toL "<meta name=\"viewport\""

/-- `if (!finalHtmlContent.includes('<html')) { finalHtmlContent =
`<!DOCTYPE html><html><head></head><body>${finalHtmlContent}</body></html>`; }` -/
def wrapIfNoHtml (s : List Char) : List Char :=
  if includesL (toL "<html") s then s
  else toL "<!DOCTYPE html><html><head></head><body>" ++ s ++ toL "</body></html>"

/-- `if (!finalHtmlContent.includes('<head>')) { finalHtmlContent =
finalHtmlContent.replace('<body>', '<head></head><body>'); }` -/
def insertHeadIfMissing (s : List Char) : List Char :=
  if includesL (toL "<head>") s then s
  else replaceFirst (toL "<body>") (toL "<head></head><body>") s

/-- Insert the viewport meta tag before the first `</head>` when no viewport
meta tag is present (no-op when `</head>` does not occur, i.e. when
`indexOf` returns `-1`). -/
def addViewportIfMissing (s : List Char) : List Char :=
  if includesL metaViewportPat s then s
  else
    match firstIdx (toL "</head>") s with
    | none => s
    | some i => s.take i ++ metaViewportTag ++ s.drop i

/-- Insert `<title>…</title>` right after the first `<head>` when no
`<title>` is present. -/
def addTitleIfMissing (titleText s : List Char) : List Char :=
  if includesL (toL "<title>") s then s
  else
    match firstIdx (toL "<head>") s with
    | none => s
    | some i =>
        s.take (i + (toL "<head>").length) ++
          (toL "<title>" ++ titleText ++ toL "</title>") ++
          s.drop (i + (toL "<head>").length)

/-- The normalization step of `generateExactPdf` (part_000 lines 51-80,
part_001 lines 85-111), as a function of the title text derived from the
device-kind label and of the raw markup. -/
def normalizeHtml (titleText s : List Char) : List Char :=
  addTitleIfMissing titleText (addViewportIfMissing (insertHeadIfMissing (wrapIfNoHtml s)))

/-- `pdfTitle.replace(' PDF', '')`. -/
def titleTextOf (pdfTitle : String) : List Char :=
  replaceFirst (toL " PDF") [] (toL pdfTitle)

/-- The document shell text placed before the markup by `wrapIfNoHtml`. -/
def shellA : List Char := toL "<!DOCTYPE html><html><head></head><body>"

/-- The document shell text placed after the markup by `wrapIfNoHtml`. -/
def shellB : List Char := toL "</body></html>"

/-- The front part of the document after the viewport meta tag has been
inserted before the shell's `</head>` (at index 27 of `shellA`). -/
def shellA1 : List Char := shellA.take 27 ++ metaViewportTag ++ shellA.drop 27

/-- The front part of the document after the `<title>` has additionally been
inserted right after the shell's `<head>` (at index 21 + 6 = 27). -/
def shellA2 (titleText : List Char) : List Char :=
  shellA1.take 27 ++ (toL "<title>" ++ titleText ++ toL "</title>") ++ shellA1.drop 27

/-- Observations of one DOM element, exactly the data the measurement loop
reads: computed style (`display`, `visibility`, `opacity`), whether
`el.textContent.trim().length > 0`, whether the element is an `IMG` and its
`complete` flag, whether `backgroundImage` is set and not `'none'`, the
`getBoundingClientRect().bottom` coordinate, and the computed bottom margin
as read by `parseInt(style.marginBottom, 10) || 0`. -/
structure ElemObs where
  displayNone : Bool
  visibilityHidden : Bool
  opacityZero : Bool
  textNonEmpty : Bool
  isImg : Bool
  imgComplete : Bool
  hasBgImage : Bool
  bottom : ℚ
  marginBottom : ℤ
deriving DecidableEq

/-- The DOM state seen by the measurement `page.evaluate`: the elements
returned by `document.querySelectorAll('*')`, in document order, and
`document.body.getBoundingClientRect().bottom`. -/
structure DomSnapshot where
  elements : List ElemObs
  bodyBottom : ℚ
deriving DecidableEq

/-- `style.display === 'none' || style.visibility === 'hidden' ||
style.opacity === '0'`: the `continue` filter of the measurement loop. -/
def isHiddenStyle (e : ElemObs) : Bool :=
  e.displayNone || e.visibilityHidden || e.opacityZero

/-- `el.textContent.trim().length > 0 || (el.tagName === 'IMG' && el.complete)
|| (style.backgroundImage && style.backgroundImage !== 'none')`. -/
def hasVisibleContent (e : ElemObs) : Bool :=
  e.textNonEmpty || (e.isImg && e.imgComplete) || e.hasBgImage

/-- One iteration of the measurement loop: state is
`(maxBottom, lastVisibleElement)`. -/
def scanStep (st : ℚ × Option ElemObs) (e : ElemObs) : ℚ × Option ElemObs :=
  if isHiddenStyle e then st
  else if hasVisibleContent e = true ∧ st.1 < e.bottom then (e.bottom, some e)
  else st

/-- After the loop: `Math.ceil(maxBottom + marginBottom)` of the last visible
element when one was found, else
`Math.ceil(document.body.getBoundingClientRect().bottom)`. -/
def finishScan (bodyBottom : ℚ) (st : ℚ × Option ElemObs) : ℤ :=
  match st.2 with
  | some el => ⌈st.1 + (el.marginBottom : ℚ)⌉
  | none => ⌈bodyBottom⌉

/-- The content-height measurement of `generateExactPdf` (part_000 lines
95-117, part_001 lines 123-145). -/
def measureContentHeight (d : DomSnapshot) : ℤ :=
  finishScan d.bodyBottom (d.elements.foldl scanStep ((0 : ℚ), none))

/-- A JSON argument value as the scripts see it: a missing key (JS
`undefined`), an integer number, or a string. -/
inductive JsVal where
  | vAbsent : JsVal
  | vNum : ℤ → JsVal
  | vStr : String → JsVal
deriving DecidableEq

/-- JS truthiness of the values representable here: `undefined`, `0` and
`''` are falsy. -/
def isFalsy : JsVal → Bool
  | .vAbsent => true
  | .vNum n => n == 0
  | .vStr s => s == ""

/-- JS `a || b`: the left operand unless it is falsy. -/
def jsOr (v dflt : JsVal) : JsVal := if isFalsy v then dflt else v

/-- JS strict equality `v === n` against a number literal. -/
def jsStrictEqNum : JsVal → ℤ → Bool
  | .vNum m, n => m == n
  | _, _ => false

/-- Value of a digit string, most significant digit first. -/
def digitsToNat (ds : List Char) : Nat :=
  ds.foldl (fun a c => a * 10 + (c.toNat - 48)) 0

/-- JS `parseInt(s, 10)`: skip leading whitespace, optional sign, then the
maximal run of leading decimal digits; `none` stands for `NaN`. -/
def parseIntL (s : List Char) : Option ℤ :=
  let t := s.dropWhile (fun c => c == ' ' || c == '\t' || c == '\n' || c == '\r')
  match t with
  | '-' :: rest =>
      if rest.takeWhile Char.isDigit = [] then none
      else some (-(digitsToNat (rest.takeWhile Char.isDigit) : ℤ))
  | '+' :: rest =>
      if rest.takeWhile Char.isDigit = [] then none
      else some ((digitsToNat (rest.takeWhile Char.isDigit) : ℤ))
  | u =>
      if u.takeWhile Char.isDigit = [] then none
      else some ((digitsToNat (u.takeWhile Char.isDigit) : ℤ))

/-- JS `parseInt(v, 10)` on an argument value.  A number is stringified
first, which for the integers arising here is the identity; `undefined`
parses to `NaN`. -/
def parseIntJs : JsVal → Option ℤ
  | .vNum n => some n
  | .vStr s => parseIntL s.data
  | .vAbsent => none

/-- The width / title selection result of part_000 lines 26-41 (identical in
part_001 lines 61-76).  `width` is the value passed to `page.setViewport`;
`none` stands for `NaN` from `parseInt`. -/
structure ViewportChoice where
  width : Option ℤ
  pdfTitle : String
deriving DecidableEq

/-- Lines 9-10 and 26-41 of part_000: apply the `|| 610` / `|| 'desktop'`
defaults, then pick mobile (fixed 360) when `viewType === 'mobile'`, custom
(`parseInt(deviceWidth, 10)`) when `deviceWidth !== 600`, else desktop
(600). -/
def selectViewport (viewTypeArg deviceWidthArg : JsVal) : ViewportChoice :=
  let viewType := jsOr viewTypeArg (JsVal.vStr "desktop")
  let deviceWidth := jsOr deviceWidthArg (JsVal.vNum 610)
  if viewType = JsVal.vStr "mobile" then
    { width := some 360, pdfTitle := "Mobile View PDF" }
  else if jsStrictEqNum deviceWidth 600 = false then
    { width := parseIntJs deviceWidth, pdfTitle := "Custom View PDF" }
  else
    { width := some 600, pdfTitle := "Desktop View PDF" }

/-- The page dimensions handed to `page.pdf` in length units (inches):
`viewportWidth / 96` and `contentHeight / 96` (part_000 lines 127-141),
as a function of the request arguments and of the DOM snapshot measured
after load.  `none` when the selected width is `NaN`. -/
def generateExactPdfDims (viewTypeArg deviceWidthArg : JsVal) (dom : DomSnapshot) :
    Option (ℚ × ℚ) :=
  match (selectViewport viewTypeArg deviceWidthArg).width with
  | some w => some ((w : ℚ) / 96, ((measureContentHeight dom : ℤ) : ℚ) / 96)
  | none => none

/-- Observable events of one script run. -/
inductive Ev where
  | launchBrowser
  | networkIdleLoad
  | imagesWait
  | imagesTimeoutLog
  | fontsReady
  | settleDelay
  | measureHeight
  | pdfExport
  | successLog
  | errorLog
  | closeBrowser
deriving DecidableEq

/-- Success / failure of the external steps of one invocation:
browser launch, content load, whether the image wait hit its 10s timeout,
and PDF export. -/
structure Outcome where
  launchOk : Bool
  loadOk : Bool
  imagesTimedOut : Bool
  exportOk : Bool
deriving DecidableEq

/-- How the process ends. -/
inductive Term where
  | completed
  | exited : Nat → Term
  | unhandledRejection
deriving DecidableEq

/-- Event trace and exit code of the part_000 main script (identical
structure in the first script of part_001), after a successful argument
parse.  The body runs inside `try { … } catch { console.error; exit(1) }
finally { if (browser) await browser.close() }`, but both the success path
and the catch path call `process.exit`, which terminates the process
immediately — the `finally` block never executes, so no trace contains
`closeBrowser`.  The image wait's timeout is swallowed by `.catch(() =>
console.log(…))` and only logged. -/
def runMain (o : Outcome) : List Ev × Nat :=
  if o.launchOk = false then ([Ev.errorLog], 1)
  else if o.loadOk = false then ([Ev.launchBrowser, Ev.errorLog], 1)
  else
    let imgEvs := if o.imagesTimedOut then [Ev.imagesWait, Ev.imagesTimeoutLog]
      else [Ev.imagesWait]
    let pre := Ev.launchBrowser :: Ev.networkIdleLoad ::
      (imgEvs ++ [Ev.fontsReady, Ev.settleDelay, Ev.measureHeight])
    if o.exportOk = false then (pre ++ [Ev.errorLog], 1)
    else (pre ++ [Ev.pdfExport, Ev.successLog], 0)

/-- The part_000 script from the top: `JSON.parse(process.argv[2])` runs
before the `try` block, so a malformed argument rejects the async function
without entering the script's `catch`; under default Node settings the
unhandled rejection crashes the process. -/
def runScript (jsonOk : Bool) (o : Outcome) : List Ev × Term :=
  if jsonOk = false then ([], Term.unhandledRejection)
  else ((runMain o).1, Term.exited (runMain o).2)

/-- Exit code observed by the caller under default Node settings: an
unhandled promise rejection crashes the process with code 1. -/
def nodeExitCode : Term → Nat
  | Term.completed => 0
  | Term.exited n => n
  | Term.unhandledRejection => 1

/-- The third script of part_001 (lines 281-349): no `try`/`catch`/`finally`
at all; `await browser.close()` runs only on the all-success path, right
before the final log, and any failure rejects the async function. -/
def runNoCatchVariant (launchOk loadOk exportOk : Bool) : List Ev × Term :=
  if launchOk = false then ([], Term.unhandledRejection)
  else if loadOk = false then ([Ev.launchBrowser], Term.unhandledRejection)
  else if exportOk = false then
    ([Ev.launchBrowser, Ev.networkIdleLoad, Ev.fontsReady, Ev.measureHeight],
      Term.unhandledRejection)
  else
    ([Ev.launchBrowser, Ev.networkIdleLoad, Ev.fontsReady, Ev.measureHeight,
      Ev.pdfExport, Ev.closeBrowser, Ev.successLog], Term.completed)

/-- `testpdf.js`: here `JSON.parse` runs inside the `try`, so a malformed
argument is caught by the script's own `catch`, logged, and the process
exits with code 1 before any browser work. -/
def runTestpdf (jsonOk launchOk loadOk exportOk : Bool) : List Ev × Nat :=
  if jsonOk = false then ([Ev.errorLog], 1)
  else if launchOk = false then ([Ev.errorLog], 1)
  else if loadOk = false then ([Ev.launchBrowser, Ev.errorLog], 1)
  else if exportOk = false then
    ([Ev.launchBrowser, Ev.networkIdleLoad, Ev.fontsReady, Ev.measureHeight,
      Ev.errorLog], 1)
  else
    ([Ev.launchBrowser, Ev.networkIdleLoad, Ev.fontsReady, Ev.measureHeight,
      Ev.pdfExport, Ev.successLog], 0)

/-- The wait / measurement events whose relative order claim C7 is about. -/
def isWaitEv : Ev → Bool
  | Ev.networkIdleLoad => true
  | Ev.imagesWait => true
  | Ev.fontsReady => true
  | Ev.settleDelay => true
  | Ev.measureHeight => true
  | _ => false

/-- A one-element document whose only element has `display:none`, with a
fractional body bounding-box bottom (so the rounding in the fallback branch
is visible). -/
def c2Dom : DomSnapshot :=
  ⟨[⟨true, false, false, true, false, false, false, 5, 3⟩], 21 / 2⟩

/-- A document with a single visible text element with bottom edge 10 and no
bottom margin. -/
def c6BaseDom : DomSnapshot :=
  ⟨[⟨false, false, false, true, false, false, false, 10, 0⟩], 10⟩

/-- A visible text element with bottom edge 12 and no bottom margin. -/
def c6NewElem : ElemObs :=
  ⟨false, false, false, true, false, false, false, 12, 0⟩

/-- A document with a single visible text element with bottom edge 100 and
bottom margin 50, so it measures 150. -/
def c6CexDom : DomSnapshot :=
  ⟨[⟨false, false, false, true, false, false, false, 100, 50⟩], 100⟩

/-- A visible text element with bottom edge 101 — below everything in
`c6CexDom` — and no bottom margin. -/
def c6CexElem : ElemObs :=
  ⟨false, false, false, true, false, false, false, 101, 0⟩

theorem occ_cons (pat : List Char) (c : Char) (rest : List Char) :
    occ pat (c :: rest) = (if pat <+: (c :: rest) then 1 else 0) + occ pat rest := rfl

theorem prefix_of_prefix_append {p l b : List Char} (h : p <+: l ++ b)
    (hl : p.length ≤ l.length) : p <+: l := by
  rw [List.prefix_iff_eq_take] at h ⊢
  rwa [List.take_append_of_le_length hl] at h

theorem occ_append_left (pat : List Char) :
    ∀ a b : List Char, leftSafe pat a → occ pat (a ++ b) = occ pat a + occ pat b := by
  intro a
  induction a with
  | nil => intro b _; simp [occ]
  | cons c a2 ih =>
    intro b h
    have hsafe : leftSafe pat a2 := by
      intro k hk hk0 hka
      have hdrop : (c :: a2).drop ((c :: a2).length - k) = a2.drop (a2.length - k) := by
        have hlen : (c :: a2).length - k = (a2.length - k) + 1 := by
          simp only [List.length_cons]; omega
        rw [hlen, List.drop_succ_cons]
      intro hEq
      exact h k hk hk0 (by simp only [List.length_cons]; omega) (by rw [hdrop]; exact hEq)
    have htail : occ pat (a2 ++ b) = occ pat a2 + occ pat b := ih b hsafe
    have hhead : (pat <+: c :: (a2 ++ b)) ↔ (pat <+: c :: a2) := by
      rcases le_or_lt pat.length (c :: a2).length with hle | hgt
      · exact ⟨fun hp => prefix_of_prefix_append hp hle,
          fun hp => hp.trans (List.prefix_append (c :: a2) b)⟩
      · constructor
        · intro hp
          exfalso
          have hp2 : (c :: a2) <+: pat := by
            have h1 : (c :: a2) <+: c :: (a2 ++ b) := List.prefix_append (c :: a2) b
            rcases List.prefix_or_prefix_of_prefix hp h1 with hc | hc
            · exact absurd hc.length_le (by omega)
            · exact hc
          have htake : pat.take (c :: a2).length = c :: a2 :=
            (List.prefix_iff_eq_take.mp hp2).symm
          exact h (c :: a2).length hgt (by simp) le_rfl
            (by rw [Nat.sub_self, List.drop_zero]; exact htake)
        · intro hp
          exact absurd hp.length_le (by omega)
    show occ pat (c :: (a2 ++ b)) = occ pat (c :: a2) + occ pat b
    rw [occ_cons, occ_cons, htail]
    simp only [hhead]
    exact (Nat.add_assoc _ _ _).symm

theorem occ_append_right (pat : List Char) :
    ∀ a b : List Char, rightSafe pat b → occ pat (a ++ b) = occ pat a + occ pat b := by
  intro a
  induction a with
  | nil => intro b _; simp [occ]
  | cons c a2 ih =>
    intro b h
    have htail : occ pat (a2 ++ b) = occ pat a2 + occ pat b := ih b h
    have hhead : (pat <+: c :: (a2 ++ b)) ↔ (pat <+: c :: a2) := by
      rcases le_or_lt pat.length (c :: a2).length with hle | hgt
      · exact ⟨fun hp => prefix_of_prefix_append hp hle,
          fun hp => hp.trans (List.prefix_append (c :: a2) b)⟩
      · constructor
        · intro hp
          exfalso
          have hpeq : pat = (c :: (a2 ++ b)).take pat.length :=
            List.prefix_iff_eq_take.mp hp
          have hdropb : pat.drop (c :: a2).length <+: b := by
            rw [hpeq]
            show ((( c :: a2) ++ b).take pat.length).drop (c :: a2).length <+: b
            rw [List.drop_take, List.drop_left]
            exact List.take_prefix _ _
          exact h (c :: a2).length hgt (by simp) hdropb
        · intro hp
          exact absurd hp.length_le (by omega)
    show occ pat (c :: (a2 ++ b)) = occ pat (c :: a2) + occ pat b
    rw [occ_cons, occ_cons, htail]
    simp only [hhead]
    exact (Nat.add_assoc _ _ _).symm

theorem occ_split3 (pat A m B : List Char) (hA : leftSafe pat A) (hB : rightSafe pat B) :
    occ pat (A ++ (m ++ B)) = occ pat A + occ pat m + occ pat B := by
  rw [occ_append_left pat A (m ++ B) hA, occ_append_right pat m B hB, Nat.add_assoc]

theorem firstIdx_eq_none_iff (pat : List Char) (hp : pat ≠ []) :
    ∀ l, firstIdx pat l = none ↔ occ pat l = 0 := by
  intro l
  induction l with
  | nil => simp [firstIdx, occ, hp]
  | cons c rest ih =>
    by_cases hpre : pat <+: c :: rest
    · simp only [firstIdx, occ, if_pos hpre]
      constructor
      · intro h; cases h
      · intro h; exact absurd h (by omega)
    · simp only [firstIdx, occ, if_neg hpre]
      rw [Option.map_eq_none', ih]
      omega

theorem firstIdx_append (pat : List Char) (hp : pat ≠ []) :
    ∀ (a b : List Char) (i : Nat), firstIdx pat a = some i →
      i + pat.length ≤ a.length → firstIdx pat (a ++ b) = some i := by
  intro a
  induction a with
  | nil => intro b i h _; simp [firstIdx, hp] at h
  | cons c a2 ih =>
    intro b i h hlen
    by_cases hpre : pat <+: c :: a2
    · simp only [firstIdx, if_pos hpre] at h
      injection h with h0
      subst h0
      show firstIdx pat (c :: (a2 ++ b)) = some 0
      have hpre2 : pat <+: c :: (a2 ++ b) := hpre.trans (List.prefix_append (c :: a2) b)
      simp [firstIdx, hpre2]
    · simp only [firstIdx, if_neg hpre] at h
      rcases Option.map_eq_some'.mp h with ⟨j, hj, hji⟩
      have hlen2 : j + pat.length ≤ a2.length := by
        simp only [List.length_cons] at hlen; omega
      have hnotpre : ¬ pat <+: c :: (a2 ++ b) := by
        intro hcontra
        have hplen : pat.length ≤ (c :: a2).length := by
          simp only [List.length_cons]; omega
        exact hpre (prefix_of_prefix_append hcontra hplen)
      show firstIdx pat (c :: (a2 ++ b)) = some i
      simp only [firstIdx, if_neg hnotpre]
      rw [ih b j hj hlen2]
      simp [hji]

theorem occ_eq_zero_mono {p q : List Char} (hpq : p <+: q) :
    ∀ l, occ p l = 0 → occ q l = 0 := by
  intro l
  induction l with
  | nil => intro _; rfl
  | cons c rest ih =>
    intro h
    rw [occ_cons] at h ⊢
    by_cases hp1 : p <+: c :: rest
    · rw [if_pos hp1] at h
      exact absurd h (by omega)
    · rw [if_neg hp1] at h
      have h2 : occ p rest = 0 := by omega
      have hq : ¬ q <+: c :: rest := fun hc => hp1 (hpq.trans hc)
      rw [if_neg hq, ih h2]

theorem includesL_eq_false_iff (pat : List Char) (hp : pat ≠ []) (l : List Char) :
    includesL pat l = false ↔ occ pat l = 0 := by
  unfold includesL
  cases hfi : firstIdx pat l with
  | none => simp [(firstIdx_eq_none_iff pat hp l).mp hfi]
  | some i =>
    have hne : occ pat l ≠ 0 := by
      intro h0
      have := (firstIdx_eq_none_iff pat hp l).mpr h0
      rw [hfi] at this
      cases this
    simp [hne]

theorem includesL_eq_true_of_firstIdx {pat l : List Char} {i : Nat}
    (h : firstIdx pat l = some i) : includesL pat l = true := by
  simp [includesL, h]

theorem wrapIfNoHtml_eq (m : List Char) (h : includesL (toL "<html") m = false) :
    wrapIfNoHtml m = shellA ++ (m ++ shellB) := by
  simp [wrapIfNoHtml, h, shellA, shellB, List.append_assoc]

theorem insertHeadIfMissing_shell (x : List Char) :
    insertHeadIfMissing (shellA ++ x) = shellA ++ x := by
  have hfi : firstIdx (toL "<head>") (shellA ++ x) = some 21 :=
    firstIdx_append _ (by decide) shellA x 21 (by decide) (by decide)
  simp [insertHeadIfMissing, includesL_eq_true_of_firstIdx hfi]

theorem addViewportIfMissing_shell (m : List Char)
    (h3 : includesL metaViewportPat m = false) :
    addViewportIfMissing (shellA ++ (m ++ shellB)) = shellA1 ++ (m ++ shellB) := by
  have hocc : occ metaViewportPat (shellA ++ (m ++ shellB)) = 0 := by
    rw [occ_split3 _ _ _ _ (by decide) (by decide),
      (includesL_eq_false_iff _ (by decide) m).mp h3]
    decide
  have hinc : includesL metaViewportPat (shellA ++ (m ++ shellB)) = false :=
    (includesL_eq_false_iff _ (by decide) _).mpr hocc
  have hfi : firstIdx (toL "</head>") (shellA ++ (m ++ shellB)) = some 27 :=
    firstIdx_append _ (by decide) shellA _ 27 (by decide) (by decide)
  rw [addViewportIfMissing]
  simp only [hinc, Bool.false_eq_true, if_false, hfi]
  rw [List.take_append_of_le_length (by decide), List.drop_append_of_le_length (by decide)]
  simp [shellA1, List.append_assoc]

theorem addTitleIfMissing_skip (t s : List Char)
    (hT : includesL (toL "<title>") s = true) :
    addTitleIfMissing t s = s := by
  simp [addTitleIfMissing, hT]

theorem addTitleIfMissing_shell (t x : List Char)
    (hT : includesL (toL "<title>") (shellA1 ++ x) = false) :
    addTitleIfMissing t (shellA1 ++ x) = shellA2 t ++ x := by
  have hfi : firstIdx (toL "<head>") (shellA1 ++ x) = some 21 :=
    firstIdx_append _ (by decide) shellA1 x 21 (by decide) (by decide)
  rw [addTitleIfMissing]
  simp only [hT, Bool.false_eq_true, if_false, hfi]
  have h27 : 21 + (toL "<head>").length = 27 := by decide
  rw [h27, List.take_append_of_le_length (by decide),
    List.drop_append_of_le_length (by decide)]
  simp [shellA2, List.append_assoc]

/-- C4 (amended): for markup without an `<html>` tag that also contains no
`<head>` tag and no viewport meta tag of its own, the normalized document
contains exactly one `<html>` tag, exactly one `<head>` tag and exactly one
viewport meta tag, for each of the three device-kind title labels.  (The
original claim, without the extra two provisos on the markup, is refuted by
`c4_counterexample`.) -/
theorem c4_normalized_tag_counts (m titleText : List Char)
    (ht : titleText = toL "Mobile View" ∨ titleText = toL "Custom View" ∨
      titleText = toL "Desktop View")
    (h1 : includesL (toL "<html") m = false)
    (h2 : includesL (toL "<head>") m = false)
    (h3 : includesL metaViewportPat m = false) :
    occ (toL "<html>") (normalizeHtml titleText m) = 1 ∧
    occ (toL "<head>") (normalizeHtml titleText m) = 1 ∧
    occ metaViewportPat (normalizeHtml titleText m) = 1 := by
  have hm_html : occ (toL "<html>") m = 0 :=
    occ_eq_zero_mono (by decide) m ((includesL_eq_false_iff _ (by decide) m).mp h1)
  have hm_head : occ (toL "<head>") m = 0 :=
    (includesL_eq_false_iff _ (by decide) m).mp h2
  have hm_meta : occ metaViewportPat m = 0 :=
    (includesL_eq_false_iff _ (by decide) m).mp h3
  have hmB_html : occ (toL "<html>") (m ++ shellB) = 0 := by
    rw [occ_append_right _ m shellB (by decide), hm_html]; decide
  have hmB_head : occ (toL "<head>") (m ++ shellB) = 0 := by
    rw [occ_append_right _ m shellB (by decide), hm_head]; decide
  have hmB_meta : occ metaViewportPat (m ++ shellB) = 0 := by
    rw [occ_append_right _ m shellB (by decide), hm_meta]; decide
  rw [normalizeHtml, wrapIfNoHtml_eq m h1, insertHeadIfMissing_shell,
    addViewportIfMissing_shell m h3]
  by_cases hT : includesL (toL "<title>") (shellA1 ++ (m ++ shellB)) = true
  · rw [addTitleIfMissing_skip _ _ hT]
    refine ⟨?_, ?_, ?_⟩
    · rw [occ_append_left _ _ _ (by decide), hmB_html]; decide
    · rw [occ_append_left _ _ _ (by decide), hmB_head]; decide
    · rw [occ_append_left _ _ _ (by decide), hmB_meta]; decide
  · have hT2 : includesL (toL "<title>") (shellA1 ++ (m ++ shellB)) = false :=
      Bool.not_eq_true _ ▸ hT
    rw [addTitleIfMissing_shell titleText (m ++ shellB) hT2]
    rcases ht with rfl | rfl | rfl
    · refine ⟨?_, ?_, ?_⟩
      · rw [occ_append_left _ _ _ (by decide), hmB_html]; decide
      · rw [occ_append_left _ _ _ (by decide), hmB_head]; decide
      · rw [occ_append_left _ _ _ (by decide), hmB_meta]; decide
    · refine ⟨?_, ?_, ?_⟩
      · rw [occ_append_left _ _ _ (by decide), hmB_html]; decide
      · rw [occ_append_left _ _ _ (by decide), hmB_head]; decide
      · rw [occ_append_left _ _ _ (by decide), hmB_meta]; decide
    · refine ⟨?_, ?_, ?_⟩
      · rw [occ_append_left _ _ _ (by decide), hmB_html]; decide
      · rw [occ_append_left _ _ _ (by decide), hmB_head]; decide
      · rw [occ_append_left _ _ _ (by decide), hmB_meta]; decide

/-- Witness for `c4_normalized_tag_counts` at the markup `<p>hello</p>` with
the desktop title label. -/
theorem c4_normalized_tag_counts_witness :
    occ (toL "<html>") (normalizeHtml (toL "Desktop View") (toL "<p>hello</p>")) = 1 ∧
    occ (toL "<head>") (normalizeHtml (toL "Desktop View") (toL "<p>hello</p>")) = 1 ∧
    occ metaViewportPat (normalizeHtml (toL "Desktop View") (toL "<p>hello</p>")) = 1 :=
  c4_normalized_tag_counts (toL "<p>hello</p>") (toL "Desktop View")
    (Or.inr (Or.inr rfl)) (by decide) (by decide) (by decide)

/-- C4 counterexample: the markup `<head></head>` has no `<html>` tag, yet
its normalized document contains the `<head>` tag twice (the shell's and the
markup's own), so the normalized document does not contain exactly one
`<head>` element. -/
theorem c4_counterexample :
    includesL (toL "<html") (toL "<head></head>") = false ∧
    occ (toL "<head>") (normalizeHtml (toL "Desktop View") (toL "<head></head>")) = 2 := by
  constructor
  · decide
  · decide

/-- C2: when every element scanned by the measurement loop has
`display:none`, no element qualifies as visible content and the measurement
returns the body bounding-box bottom rounded up — the fallback branch. -/
theorem c2_hidden_fallback (d : DomSnapshot)
    (h : ∀ e ∈ d.elements, e.displayNone = true) :
    measureContentHeight d = ⌈d.bodyBottom⌉ := by
  have key : ∀ (l : List ElemObs) (st : ℚ × Option ElemObs),
      (∀ e ∈ l, e.displayNone = true) → l.foldl scanStep st = st := by
    intro l
    induction l with
    | nil => intro st _; rfl
    | cons e rest ih =>
      intro st hall
      have he : e.displayNone = true := hall e (by simp)
      have hstep : scanStep st e = st := by
        simp [scanStep, isHiddenStyle, he]
      rw [List.foldl_cons, hstep]
      exact ih st (fun x hx => hall x (by simp [hx]))
  rw [measureContentHeight, key d.elements _ h]
  rfl

/-- Witness for `c2_hidden_fallback` on a concrete one-element document. -/
theorem c2_hidden_fallback_witness :
    measureContentHeight c2Dom = ⌈c2Dom.bodyBottom⌉ :=
  c2_hidden_fallback c2Dom (by decide)

/-- C6 (amended): appending a visible content element `e` does not decrease
the measured height provided `e.bottom + e.marginBottom` is at least the
height measured for the original document.  Without that proviso the
measured height can strictly decrease (`c6_counterexample`), because the
final result adds only the bottom margin of the lowest tracked element. -/
theorem c6_append_monotone (d : DomSnapshot) (e : ElemObs)
    (h1 : isHiddenStyle e = false) (h2 : hasVisibleContent e = true)
    (h3 : ((measureContentHeight d : ℤ) : ℚ) ≤ e.bottom + (e.marginBottom : ℚ)) :
    measureContentHeight d ≤
      measureContentHeight ⟨d.elements ++ [e], d.bodyBottom⟩ := by
  have hfold : (d.elements ++ [e]).foldl scanStep ((0 : ℚ), none) =
      scanStep (d.elements.foldl scanStep ((0 : ℚ), none)) e := by
    rw [List.foldl_append]
    rfl
  have hexp : measureContentHeight ⟨d.elements ++ [e], d.bodyBottom⟩ =
      finishScan d.bodyBottom
        (scanStep (d.elements.foldl scanStep ((0 : ℚ), none)) e) := by
    rw [measureContentHeight, hfold]
  rw [hexp]
  set st := d.elements.foldl scanStep ((0 : ℚ), none) with hst
  have hmeas : measureContentHeight d = finishScan d.bodyBottom st := rfl
  rw [scanStep, if_neg (by simp [h1])]
  by_cases hlt : st.1 < e.bottom
  · rw [if_pos ⟨h2, hlt⟩]
    have hr : finishScan d.bodyBottom (e.bottom, some e) =
        ⌈e.bottom + (e.marginBottom : ℚ)⌉ := rfl
    rw [hr]
    have hc : ((measureContentHeight d : ℤ) : ℚ) ≤
        ((⌈e.bottom + (e.marginBottom : ℚ)⌉ : ℤ) : ℚ) :=
      h3.trans (Int.le_ceil _)
    exact_mod_cast hc
  · rw [if_neg (fun hc => hlt hc.2), hmeas]

/-- Witness for `c6_append_monotone`: a document measuring 10 with a visible
element of bottom 12 appended. -/
theorem c6_append_monotone_witness :
    measureContentHeight c6BaseDom ≤
      measureContentHeight ⟨c6BaseDom.elements ++ [c6NewElem], c6BaseDom.bodyBottom⟩ :=
  c6_append_monotone c6BaseDom c6NewElem (by decide) (by decide)
    (by
      have hm : measureContentHeight c6BaseDom = 10 := by
        norm_num [c6BaseDom, measureContentHeight, finishScan, scanStep,
          isHiddenStyle, hasVisibleContent]
      rw [hm]
      norm_num [c6NewElem])

/-- C6 counterexample: the claim without the proviso is false.  `c6CexDom`
has one visible element (bottom 100, bottom margin 50) and measures 150;
appending the visible element `c6CexElem` (bottom 101 — lower than every
element bottom and than the body bottom — margin 0) makes the document
measure 101 < 150: appending visible content strictly decreased the
measured height. -/
theorem c6_counterexample :
    isHiddenStyle c6CexElem = false ∧
    hasVisibleContent c6CexElem = true ∧
    (∀ x ∈ c6CexDom.elements, x.bottom ≤ c6CexElem.bottom) ∧
    c6CexDom.bodyBottom ≤ c6CexElem.bottom ∧
    measureContentHeight ⟨c6CexDom.elements ++ [c6CexElem], c6CexDom.bodyBottom⟩ <
      measureContentHeight c6CexDom := by
  refine ⟨by decide, by decide, ?_, ?_, ?_⟩
  · intro x hx
    simp only [c6CexDom, List.mem_singleton] at hx
    subst hx
    norm_num [c6CexElem]
  · norm_num [c6CexDom, c6CexElem]
  · have ha : measureContentHeight c6CexDom = 150 := by
      norm_num [c6CexDom, measureContentHeight, finishScan, scanStep,
        isHiddenStyle, hasVisibleContent]
    have hb : measureContentHeight
        ⟨c6CexDom.elements ++ [c6CexElem], c6CexDom.bodyBottom⟩ = 101 := by
      norm_num [c6CexDom, c6CexElem, measureContentHeight, finishScan, scanStep,
        isHiddenStyle, hasVisibleContent]
    rw [ha, hb]
    norm_num

/-- C1: for a custom-width request — `viewType` not resolving to `'mobile'`
and a caller-supplied positive integer width `W ≠ 600` — the exported PDF
page is exactly `W / 96` length units wide and `measuredHeight / 96` length
units tall. -/
theorem c1_custom_pdf_dims (W : ℤ) (viewTypeArg : JsVal) (dom : DomSnapshot)
    (hpos : 0 < W) (hne : W ≠ 600)
    (hvt : jsOr viewTypeArg (JsVal.vStr "desktop") ≠ JsVal.vStr "mobile") :
    generateExactPdfDims viewTypeArg (JsVal.vNum W) dom =
      some ((W : ℚ) / 96, ((measureContentHeight dom : ℤ) : ℚ) / 96) := by
  have hfal : isFalsy (JsVal.vNum W) = false := by
    simp only [isFalsy, beq_eq_false_iff_ne, ne_eq]
    omega
  have hjs : jsOr (JsVal.vNum W) (JsVal.vNum 610) = JsVal.vNum W := by
    simp [jsOr, hfal]
  have hstrict : jsStrictEqNum (JsVal.vNum W) 600 = false := by
    simp only [jsStrictEqNum, beq_eq_false_iff_ne, ne_eq]
    exact hne
  have hsel : selectViewport viewTypeArg (JsVal.vNum W) =
      { width := some W, pdfTitle := "Custom View PDF" } := by
    simp only [selectViewport, hjs]
    rw [if_neg hvt, if_pos hstrict]
    rfl
  rw [generateExactPdfDims, hsel]

/-- Witness for `c1_custom_pdf_dims` at width 500 with absent `viewType`. -/
theorem c1_custom_pdf_dims_witness :
    generateExactPdfDims JsVal.vAbsent (JsVal.vNum 500) c6BaseDom =
      some ((((500 : ℤ)) : ℚ) / 96, ((measureContentHeight c6BaseDom : ℤ) : ℚ) / 96) :=
  c1_custom_pdf_dims 500 JsVal.vAbsent c6BaseDom (by decide) (by decide) (by decide)

/-- C5: with `viewType = 'mobile'` the selected viewport width is the fixed
mobile width 360 (and the mobile title), whatever `deviceWidth` the caller
supplies: the supplied width plays no role in the mobile branch. -/
theorem c5_mobile_fixed_width :
    ∀ deviceWidthArg : JsVal,
      selectViewport (JsVal.vStr "mobile") deviceWidthArg =
        { width := some 360, pdfTitle := "Mobile View PDF" } := by
  intro dw
  have hjs : jsOr (JsVal.vStr "mobile") (JsVal.vStr "desktop") = JsVal.vStr "mobile" := by
    decide
  simp only [selectViewport, hjs]
  simp

theorem jsStrictEqNum_true_iff (v : JsVal) (n : ℤ) :
    jsStrictEqNum v n = true ↔ v = JsVal.vNum n := by
  cases v with
  | vAbsent => simp [jsStrictEqNum]
  | vNum m => simp [jsStrictEqNum]
  | vStr s => simp [jsStrictEqNum]

theorem jsOr610_eq_num600_iff (dw : JsVal) :
    jsOr dw (JsVal.vNum 610) = JsVal.vNum 600 ↔ dw = JsVal.vNum 600 := by
  cases dw with
  | vAbsent => decide
  | vNum n =>
    by_cases h0 : n = 0
    · subst h0; decide
    · have hfal : isFalsy (JsVal.vNum n) = false := by
        simp only [isFalsy, beq_eq_false_iff_ne, ne_eq]
        exact h0
      simp [jsOr, hfal]
  | vStr s =>
    by_cases h0 : s = ""
    · subst h0; decide
    · have hfal : isFalsy (JsVal.vStr s) = false := by
        simp only [isFalsy, beq_eq_false_iff_ne, ne_eq]
        exact h0
      simp [jsOr, hfal]

/-- C10: with no `deviceWidth` supplied, the `|| 610` argument default
differs from the hardcoded desktop default 600, so the request is classified
as custom (width 610, title `Custom View PDF`) even for an absent or
`'desktop'` `viewType`; in a non-mobile request the desktop branch is taken
exactly when the caller supplies the number `600` (strict equality), and the
string `"600"` still selects the custom branch (with parsed width 600). -/
theorem c10_width_classification :
    selectViewport JsVal.vAbsent JsVal.vAbsent =
      { width := some 610, pdfTitle := "Custom View PDF" } ∧
    selectViewport (JsVal.vStr "desktop") JsVal.vAbsent =
      { width := some 610, pdfTitle := "Custom View PDF" } ∧
    (∀ vt dw : JsVal, jsOr vt (JsVal.vStr "desktop") ≠ JsVal.vStr "mobile" →
      ((selectViewport vt dw).pdfTitle = "Desktop View PDF" ↔ dw = JsVal.vNum 600)) ∧
    (∀ vt : JsVal, jsOr vt (JsVal.vStr "desktop") ≠ JsVal.vStr "mobile" →
      selectViewport vt (JsVal.vStr "600") =
        { width := some 600, pdfTitle := "Custom View PDF" }) := by
  refine ⟨by decide, by decide, ?_, ?_⟩
  · intro vt dw hvt
    by_cases h600 : dw = JsVal.vNum 600
    · subst h600
      have hjs : jsOr (JsVal.vNum 600) (JsVal.vNum 610) = JsVal.vNum 600 := by decide
      simp only [selectViewport, hjs]
      rw [if_neg hvt, if_neg (by decide : ¬ jsStrictEqNum (JsVal.vNum 600) 600 = false)]
      simp
    · have hne : jsOr dw (JsVal.vNum 610) ≠ JsVal.vNum 600 :=
        fun hc => h600 ((jsOr610_eq_num600_iff dw).mp hc)
      have hstrict : jsStrictEqNum (jsOr dw (JsVal.vNum 610)) 600 = false := by
        cases hb : jsStrictEqNum (jsOr dw (JsVal.vNum 610)) 600
        · rfl
        · exact absurd ((jsStrictEqNum_true_iff _ _).mp hb) hne
      simp only [selectViewport]
      rw [if_neg hvt, if_pos hstrict]
      show ("Custom View PDF" = "Desktop View PDF") ↔ dw = JsVal.vNum 600
      constructor
      · intro hcontra
        exact absurd hcontra (by decide)
      · intro hcontra
        exact absurd hcontra h600
  · intro vt hvt
    have hjs : jsOr (JsVal.vStr "600") (JsVal.vNum 610) = JsVal.vStr "600" := by decide
    have hstrict : jsStrictEqNum (JsVal.vStr "600") 600 = false := by decide
    have hparse : parseIntJs (JsVal.vStr "600") = some 600 := by decide
    simp only [selectViewport, hjs]
    rw [if_neg hvt, if_pos hstrict]
    rw [ViewportChoice.mk.injEq]
    exact ⟨hparse, rfl⟩

/-- Witness for `c10_width_classification`: supplying the number 600 with a
`'desktop'` view type does select the desktop branch. -/
theorem c10_width_classification_witness :
    (selectViewport (JsVal.vStr "desktop") (JsVal.vNum 600)).pdfTitle = "Desktop View PDF" :=
  (c10_width_classification.2.2.1 (JsVal.vStr "desktop") (JsVal.vNum 600) (by decide)).mpr rfl

/-- C3 evaluation: in the part_000 / part_001 main scripts the `finally`
block never runs, because both the success path and the catch path call
`process.exit` first — no trace contains the browser-close step, whatever
the outcome; and in the third script of part_001 (no `try` at all) the close
step is skipped on a load failure and runs only on the all-success path. -/
theorem c3_close_not_guaranteed :
    (∀ a b c d : Bool, Ev.closeBrowser ∉ (runMain ⟨a, b, c, d⟩).1) ∧
    Ev.closeBrowser ∉ (runNoCatchVariant true false true).1 ∧
    Ev.closeBrowser ∈ (runNoCatchVariant true true true).1 := by
  refine ⟨?_, by decide, by decide⟩
  decide

/-- C7 counterexample: on a successful run the font wait does not precede
the image wait — the claimed wait order is not the code's order. -/
theorem c7_counterexample :
    (runMain ⟨true, true, false, true⟩).1.filter isWaitEv ≠
      [Ev.networkIdleLoad, Ev.fontsReady, Ev.imagesWait, Ev.settleDelay,
        Ev.measureHeight] := by
  decide

/-- C7 (amended): after a successful load the waits happen in the order
network-idle, then the bounded image wait, then the font wait, then the
500 ms settle delay, and only then the measurement — for both image-timeout
outcomes and both export outcomes. -/
theorem c7_wait_order :
    ∀ t ex : Bool,
      (runMain ⟨true, true, t, ex⟩).1.filter isWaitEv =
        [Ev.networkIdleLoad, Ev.imagesWait, Ev.fontsReady, Ev.settleDelay,
          Ev.measureHeight] := by
  decide

/-- C8: the image-wait timeout is non-fatal: it is logged and the run still
reaches the measurement step, and the exit code depends only on the launch,
load and export outcomes (`0` exactly when all three succeed), never on the
timeout flag — the timeout is the only error condition that does not force
failure. -/
theorem c8_image_timeout_nonfatal :
    ∀ t ex a b : Bool,
      Ev.measureHeight ∈ (runMain ⟨true, true, t, ex⟩).1 ∧
      ((Ev.imagesTimeoutLog ∈ (runMain ⟨true, true, t, ex⟩).1) ↔ t = true) ∧
      (runMain ⟨a, b, t, ex⟩).2 = (if a && b && ex then 0 else 1) := by
  decide

/-- C9 counterexample: in part_000 the `JSON.parse` call runs before the
`try` block, so with a malformed argument the script's catch never runs: no
error-log event is produced by the script and the run ends as an unhandled
rejection rather than through the script's own exit call. -/
theorem c9_counterexample :
    Ev.errorLog ∉ (runScript false ⟨true, true, false, true⟩).1 ∧
    (runScript false ⟨true, true, false, true⟩).2 = Term.unhandledRejection := by
  decide

/-- C9 (amended): on a malformed JSON argument no output file is written and
the process terminates with exit code 1 in every script; in `testpdf.js`
(parse inside the `try`) the error is caught and logged by the script's own
handler, while in part_000/part_001 the rejection escapes the script and its
catch never logs. -/
theorem c9_malformed_json :
    ∀ a b c d : Bool,
      runTestpdf false b c d = ([Ev.errorLog], 1) ∧
      Ev.pdfExport ∉ (runTestpdf false b c d).1 ∧
      Ev.pdfExport ∉ (runScript false ⟨a, b, c, d⟩).1 ∧
      nodeExitCode (runScript false ⟨a, b, c, d⟩).2 = 1 ∧
      Ev.errorLog ∉ (runScript false ⟨a, b, c, d⟩).1 := by
  decide

end XPedite
